import Mathlib

/-!
# sqlite-to-r2: the backup-and-replicate loop of `main.go`

A shallow embedding of `main.go`: the snapshot stage `backup` (with its helper
`conn`), the replicate stage `upload`, and one pass of the orchestration loop
of `main`, followed by the properties of the loop.

Collaborators outside the repository (database/sql, go-sqlite3, the S3 client,
the clock, the ticker) are not executed: every call the code makes to them takes
its outcome from an environment record, so each theorem holds for every
behaviour of the collaborators.  Every call that the code makes is written to a
trace of events, in program order.  Where a property depends on what the driver
does (the result of `Finish()` after a step that is not done, the handling of the
name of the source database), that behaviour is a definition of its own, named in
the statement.
-/

namespace SqliteToR2

/-! ## Go errors -/

/-- Go `error` values.  `base` is an error without a wrapped cause (`errors.New`,
or an error handed back by a collaborator); `wrap` is what `fmt.Errorf` builds
when its format holds a `%w` verb: the text, and the operand as `Unwrap` result. -/
inductive GoError where
  | base (msg : String)
  | wrap (msg : String) (cause : GoError)
  deriving DecidableEq, Repr

/-- The method `Error()`: the message text. -/
def GoError.Error : GoError → String
  | .base m => m
  | .wrap m _ => m

/-- The method `Unwrap()`: the wrapped cause, if there is one. -/
def GoError.Unwrap : GoError → Option GoError
  | .base _ => none
  | .wrap _ c => some c

/-- The unwrap chain that `errors.Is` and `errors.As` walk: the error itself, then
its `Unwrap` result, and so on. -/
def GoError.chain : GoError → List GoError
  | .base m => [.base m]
  | .wrap m c => .wrap m c :: c.chain

/-- The call `errors.New(text)`. -/
def errorsNew (text : String) : GoError := .base text

/-- The call `fmt.Errorf(text + "%w", err)`: the message is the text followed by
the message of `err`, and `err` is wrapped. -/
def fmtErrorfW (text : String) (err : GoError) : GoError := .wrap (text ++ err.Error) err

/-! ## Time -/

/-- The constant `time.Millisecond`, in nanoseconds. -/
def Millisecond : Nat := 1000000

/-- The constant `time.Second`, in nanoseconds. -/
def Second : Nat := 1000 * Millisecond

/-- The constant `time.Hour`, in nanoseconds. -/
def Hour : Nat := 3600 * Second

/-- A `time.Time` as returned by `time.Now()`, reduced to the two readings the
code uses: the instant in nanoseconds on the clock that `Sub` compares, and the
Unix time in seconds that `Unix()` returns. -/
structure Time where
  ns : Int
  unix : Int
  deriving DecidableEq, Repr

/-- Largest `time.Duration` (an int64 count of nanoseconds). -/
def maxDuration : Int := 2 ^ 63 - 1

/-- Smallest `time.Duration`. -/
def minDuration : Int := -(2 ^ 63)

/-- The method `t.Sub(u)`: the duration `t - u` as an int64 count of nanoseconds,
saturated to the largest or smallest duration when the difference does not fit. -/
def Time.Sub (t u : Time) : Int :=
  if maxDuration < t.ns - u.ns then maxDuration
  else if t.ns - u.ns < minDuration then minDuration
  else t.ns - u.ns

/-- The method `d.Milliseconds()`: `int64(d) / 1e6`, Go's integer division, which
truncates toward zero. -/
def Milliseconds (d : Int) : Int := Int.tdiv d 1000000

/-- The method `t.Unix()`. -/
def Time.Unix (t : Time) : Int := t.unix

/-- Rounding of a natural number to the nearest number with a 53 bit significand,
ties to the even significand: the magnitude of an int64 to float64 conversion. -/
def roundToFloat64 (n : Nat) : Nat :=
  if n < 2 ^ 53 then n
  else
    let e := Nat.log2 n - 52
    let q := n / 2 ^ e
    let r := n % 2 ^ e
    let half := 2 ^ (e - 1)
    if r < half then q * 2 ^ e
    else if half < r then (q + 1) * 2 ^ e
    else if q % 2 = 0 then q * 2 ^ e
    else (q + 1) * 2 ^ e

/-- The conversion `float64(x)` of an int64.  The float64 is represented by the
integer it holds (every float64 that the program stores in a gauge is one). -/
def float64 (x : Int) : Int :=
  if x < 0 then -((roundToFloat64 x.natAbs : Nat) : Int) else ((roundToFloat64 x.natAbs : Nat) : Int)

/-! ## Events -/

/-- The two database handles of `backup`. -/
inductive Db where
  | src
  | dest
  deriving DecidableEq, Repr

/-- The calls the program makes, as they appear in the trace.  A flag `ok` tells
whether the call returned a nil error. -/
inductive Event where
  /-- A call `time.Now()`. -/
  | timeNow
  /-- The call `backup(dbFilePath)` of the loop, with the clock at that instant. -/
  | callBackup (clock : Nat)
  /-- The call `upload(ctx, s3Client, bucketName)` of the loop. -/
  | callUpload
  /-- A call `sql.Open`. -/
  | sqlOpen (db : Db) (ok : Bool)
  /-- A deferred call `Close()` on a database handle. -/
  | dbClose (db : Db)
  /-- A call `Ping()`. -/
  | dbPing (db : Db) (ok : Bool)
  /-- A call `db.Conn(context.Background())` inside `conn`. -/
  | dbConn (db : Db) (ok : Bool)
  /-- A call `rawConn.Raw(...)` inside `conn`. -/
  | connRaw (db : Db) (ok : Bool)
  /-- The call `os.Remove(BACKUP_FILE)`. -/
  | osRemove
  /-- The call `destConn.Backup("main", srcConn, "main")`. -/
  | backupInit (ok : Bool)
  /-- The call `backup.Step(-1)` with its two results. -/
  | backupStep (done : Bool) (ok : Bool)
  /-- The call `backup.Finish()`. -/
  | backupFinish (ok : Bool)
  /-- The call `os.Open(BACKUP_FILE)`. -/
  | osOpen (ok : Bool)
  /-- The deferred call `file.Close()`. -/
  | fileClose
  /-- The call `s3Client.PutObject`. -/
  | putObject (ok : Bool)
  /-- A call `state.Set`. -/
  | stateSet (v : Int)
  /-- A call `duration.Set`. -/
  | durationSet (v : Int)
  /-- A call `last_successful.Set`. -/
  | lastSuccessfulSet (v : Int)
  /-- A call `time.Sleep`. -/
  | sleep (d : Nat)
  /-- The receive `<-ticker.C`. -/
  | tickerRecv
  deriving DecidableEq, Repr

/-! ## The snapshot stage -/

/-- The constant `BACKUP_FILE`. -/
def BACKUP_FILE : String := "/tmp/backup.db3"

/-- Outcomes of the collaborator calls of one call of `conn`. -/
structure ConnEnv where
  /-- The error of `db.Conn`, if any. -/
  dbConn : Option GoError
  /-- The error with which `rawConn.Raw` fails before it runs the callback, if any. -/
  raw : Option GoError
  /-- Whether the driver connection is a `*sqlite3.SQLiteConn`. -/
  isSQLiteConn : Bool
  deriving DecidableEq, Repr

/-- The function `conn`: its error result, and its trace. -/
def conn (db : Db) (env : ConnEnv) : Option GoError × List Event :=
  match env.dbConn with
  | some err => (some err, [.dbConn db false])
  | none =>
    match env.raw with
    | some err => (some err, [.dbConn db true, .connRaw db false])
    | none =>
      if env.isSQLiteConn then (none, [.dbConn db true, .connRaw db true])
      else (some (errorsNew "failed to get sqlite3 connection"), [.dbConn db true, .connRaw db false])

/-- Outcomes of the collaborator calls of one call of `backup`. -/
structure BackupEnv where
  srcOpen : Option GoError
  srcPing : Option GoError
  srcConn : ConnEnv
  destOpen : Option GoError
  destPing : Option GoError
  destConn : ConnEnv
  /-- The error of `destConn.Backup`, if any. -/
  backupInit : Option GoError
  /-- The first result of `backup.Step(-1)`: whether the copy is complete. -/
  stepDone : Bool
  /-- The second result of `backup.Step(-1)`. -/
  stepErr : Option GoError
  /-- The error of `backup.Finish()`, if any. -/
  finish : Option GoError
  deriving DecidableEq, Repr

/-- The part of `backup` after `defer destDb.Close()`. -/
def backupCopy (env : BackupEnv) : Option GoError × List Event :=
  match env.destPing with
  | some err => (some (fmtErrorfW "connecting to destination database: " err), [.dbPing .dest false])
  | none =>
    match conn .dest env.destConn with
    | (some err, tr) =>
      (some (fmtErrorfW "obtaining a connection to destination database: " err), .dbPing .dest true :: tr)
    | (none, tr) =>
      match env.backupInit with
      | some err =>
        (some (fmtErrorfW "calling the backup sqlite API: " err),
          .dbPing .dest true :: tr ++ [.backupInit false])
      | none =>
        match env.stepErr with
        | some err =>
          (some (fmtErrorfW "calling the step sqlite API: " err),
            .dbPing .dest true :: tr ++ [.backupInit true, .backupStep env.stepDone false])
        | none =>
          match env.finish with
          | some err =>
            (some (fmtErrorfW "closing backup: " err),
              .dbPing .dest true :: tr ++
                [.backupInit true, .backupStep env.stepDone true, .backupFinish false])
          | none =>
            (none,
              .dbPing .dest true :: tr ++
                [.backupInit true, .backupStep env.stepDone true, .backupFinish true])

/-- The part of `backup` after `defer srcDb.Close()`. -/
def backupStage (env : BackupEnv) : Option GoError × List Event :=
  match env.srcPing with
  | some err => (some (fmtErrorfW "connecting to source database: " err), [.dbPing .src false])
  | none =>
    match conn .src env.srcConn with
    | (some err, tr) =>
      (some (fmtErrorfW "obtaining a connection to source database: " err), .dbPing .src true :: tr)
    | (none, tr) =>
      match env.destOpen with
      | some err =>
        (some (fmtErrorfW "openning destination database: " err),
          .dbPing .src true :: tr ++ [.osRemove, .sqlOpen .dest false])
      | none =>
        -- defer destDb.Close()
        let rest := backupCopy env
        (rest.1, .dbPing .src true :: tr ++ [.osRemove, .sqlOpen .dest true] ++ rest.2 ++ [.dbClose .dest])

/-- The function `backup`: its error result (`none` is nil), and its trace. -/
def backup (env : BackupEnv) : Option GoError × List Event :=
  match env.srcOpen with
  | some err => (some (fmtErrorfW "openning source database: " err), [.sqlOpen .src false])
  | none =>
    -- defer srcDb.Close()
    let rest := backupStage env
    (rest.1, .sqlOpen .src true :: rest.2 ++ [.dbClose .src])

/-! ## The replicate stage -/

/-- Outcomes of the collaborator calls of one call of `upload`. -/
structure UploadEnv where
  osOpen : Option GoError
  putObject : Option GoError
  deriving DecidableEq, Repr

/-- The function `upload`: its error result, and its trace. -/
def upload (bucketName : String) (env : UploadEnv) : Option GoError × List Event :=
  match env.osOpen with
  | some err =>
    (some (errorsNew ("couldn't open file " ++ BACKUP_FILE ++ " to upload. Here's why: "
      ++ err.Error ++ "\n")), [.osOpen false])
  | none =>
    -- defer file.Close()
    match env.putObject with
    | some err =>
      (some (errorsNew ("couldn't upload file " ++ BACKUP_FILE ++ " to " ++ bucketName ++ ":"
        ++ "backup.db3" ++ ". Here's why: " ++ err.Error ++ "\n")),
        [.osOpen true, .putObject false, .fileClose])
    | none => (none, [.osOpen true, .putObject true, .fileClose])

/-! ## The ticker and the loop state -/

/-- The period of the ticker made by `time.NewTicker(3 * time.Hour)`. -/
def tickerPeriod : Nat := 3 * Hour

/-- The backoff of `time.Sleep(2 * time.Second)`. -/
def backoff : Nat := 2 * Second

/-- The instant of the first tick strictly after instant `t`, for a ticker whose
next tick is due at `nextTick`. -/
def firstTickAfter (nextTick t : Nat) : Nat :=
  if nextTick ≤ t then nextTick + ((t - nextTick) / tickerPeriod + 1) * tickerPeriod
  else nextTick

/-- What the orchestration goroutine reads and writes: the three gauges, the
runtime clock in nanoseconds since the ticker was created, the ticker (the
instant of its next tick, and whether its channel, of capacity one, holds a
tick), and the trace of the calls made so far. -/
structure World where
  state : Int
  last_successful : Int
  duration : Int
  clock : Nat
  nextTick : Nat
  tickPending : Bool
  trace : List Event
  deriving DecidableEq, Repr

/-- The process when the loop is entered: the gauges are zero, the ticker has just
been created and no call has been made. -/
def World.start : World :=
  { state := 0, last_successful := 0, duration := 0, clock := 0,
    nextTick := tickerPeriod, tickPending := false, trace := [] }

/-- Appends events to the trace. -/
def World.emit (w : World) (es : List Event) : World :=
  { w with trace := w.trace ++ es }

/-- Lets `d` nanoseconds pass.  A tick that comes due in the meantime is put in
the ticker channel; further ticks are dropped while the channel is full. -/
def World.elapse (w : World) (d : Nat) : World :=
  { w with
    clock := w.clock + d
    tickPending := w.tickPending || decide (w.nextTick ≤ w.clock + d)
    nextTick := firstTickAfter w.nextTick (w.clock + d) }

/-- The call `state.Set(v)`. -/
def World.stateSet (w : World) (v : Int) : World :=
  { w with state := v, trace := w.trace ++ [.stateSet v] }

/-- The call `duration.Set(v)`. -/
def World.durationSet (w : World) (v : Int) : World :=
  { w with duration := v, trace := w.trace ++ [.durationSet v] }

/-- The call `last_successful.Set(v)`. -/
def World.lastSuccessfulSet (w : World) (v : Int) : World :=
  { w with last_successful := v, trace := w.trace ++ [.lastSuccessfulSet v] }

/-- The call `time.Sleep(d)`. -/
def World.sleep (w : World) (d : Nat) : World :=
  (w.emit [.sleep d]).elapse d

/-- The receive `<-ticker.C`: it takes the tick held by the channel when there is
one, and otherwise blocks until the next tick. -/
def World.tickerRecv (w : World) : World :=
  if w.tickPending then
    { w with tickPending := false, trace := w.trace ++ [.tickerRecv] }
  else
    { w with
      clock := w.nextTick
      nextTick := w.nextTick + tickerPeriod
      trace := w.trace ++ [.tickerRecv] }

/-! ## The orchestration loop -/

/-- What the environment supplies to one pass of the loop body: the results of the
three calls of `time.Now()`, the outcomes of the collaborator calls of the two
stages, and how long each stage takes. -/
structure IterEnv where
  initialTime : Time
  backup : BackupEnv
  backupTime : Nat
  upload : UploadEnv
  uploadTime : Nat
  endTime : Time
  recordTime : Time
  deriving DecidableEq, Repr

/-- The body of the `for` loop of `main`: the function literal of lines 84 to 112. -/
def iteration (bucketName : String) (env : IterEnv) (w : World) : World :=
  -- initialTime := time.Now()
  let w := w.emit [.timeNow]
  -- err = backup(dbFilePath)
  let w := ((w.emit [.callBackup w.clock]).emit (backup env.backup).2).elapse env.backupTime
  match (backup env.backup).1 with
  | some _ => (w.stateSet 0).sleep backoff
  | none =>
    -- err = upload(ctx, s3Client, bucketName)
    let w := ((w.emit [.callUpload]).emit (upload bucketName env.upload).2).elapse env.uploadTime
    match (upload bucketName env.upload).1 with
    | some _ => (w.stateSet 0).sleep backoff
    | none =>
      -- endTime := time.Now()
      let w := w.emit [.timeNow]
      let execDuration := env.endTime.Sub env.initialTime
      let w := w.durationSet (float64 (Milliseconds execDuration))
      let w := w.stateSet 1
      let w := (w.emit [.timeNow]).lastSuccessfulSet (float64 env.recordTime.Unix)
      w.tickerRecv

/-- The first passes of the `for` loop of `main`, one for each environment. -/
def mainLoop (bucketName : String) : List IterEnv → World → World
  | [], w => w
  | env :: envs, w => mainLoop bucketName envs (iteration bucketName env w)

/-- The value of the `last_successful` gauge observed after each pass. -/
def observations (bucketName : String) : List IterEnv → World → List Int
  | [], _ => []
  | env :: envs, w =>
    (iteration bucketName env w).last_successful ::
      observations bucketName envs (iteration bucketName env w)

/-- Whether an event starts a run: the call of the snapshot stage. -/
def Event.startsRun : Event → Bool
  | .callBackup _ => true
  | _ => false

/-- Whether an event ends a run: the backoff sleep, or the receive from the ticker. -/
def Event.endsRun : Event → Bool
  | .sleep _ => true
  | .tickerRecv => true
  | _ => false

/-- The number of runs started in a trace. -/
def runsStarted (tr : List Event) : Nat := (tr.filter Event.startsRun).length

/-- The number of runs finished in a trace. -/
def runsFinished (tr : List Event) : Nat := (tr.filter Event.endsRun).length

/-- The instants at which the runs of a trace started. -/
def runStarts : List Event → List Nat
  | [] => []
  | .callBackup t :: es => t :: runStarts es
  | _ :: es => runStarts es

/-- The resources of `backup`: the two database handles that `sql.Open` returns,
the two connections that `db.Conn` takes out of them inside `conn`, and the
copy-operation handle that `destConn.Backup` returns. -/
inductive Handle where
  | db (d : Db)
  | conn (d : Db)
  | copy
  deriving DecidableEq, Repr

/-- The handles still held after a trace, starting from the handles `held`: a
database handle is acquired by a successful `sql.Open` and released by `Close`;
a connection is acquired by a successful `db.Conn` and the code has no call that
releases it (`Close` on the database handle closes its idle connections only);
the copy handle is acquired by a successful `destConn.Backup` and released by
`Finish`. -/
def heldAfter : List Handle → List Event → List Handle
  | held, [] => held
  | held, .sqlOpen d true :: es => heldAfter (held ++ [.db d]) es
  | held, .dbClose d :: es => heldAfter (held.erase (.db d)) es
  | held, .dbConn d true :: es => heldAfter (held ++ [.conn d]) es
  | held, .backupInit true :: es => heldAfter (held ++ [.copy]) es
  | held, .backupFinish _ :: es => heldAfter (held.erase .copy) es
  | held, _ :: es => heldAfter held es

/-- Whether both stages of a pass return nil. -/
def succeeds (bucketName : String) (env : IterEnv) : Bool :=
  (backup env.backup).1.isNone && (upload bucketName env.upload).1.isNone

/-- An error wraps a cause when the cause is in its unwrap chain. -/
def wraps (err cause : GoError) : Prop := cause ∈ err.chain

/-- The failures of one call of `conn`, in program order: the error of `db.Conn`,
the error of `rawConn.Raw`, and the error that the callback makes when the driver
connection is not a `*sqlite3.SQLiteConn`. -/
def ConnEnv.causes (env : ConnEnv) : List (Option GoError) :=
  [env.dbConn, env.raw,
    if env.isSQLiteConn then none else some (errorsNew "failed to get sqlite3 connection")]

/-- The failures of one call of `backup`, in program order. -/
def BackupEnv.causes (env : BackupEnv) : List GoError :=
  ([env.srcOpen, env.srcPing] ++ env.srcConn.causes ++ [env.destOpen, env.destPing] ++
    env.destConn.causes ++ [env.backupInit, env.stepErr, env.finish]).reduceOption

/-- The statement that after a successful pass the next run starts no earlier
than the first tick that fires after the run finished. -/
def waitsForFreshTick (bucketName : String) (env : IterEnv) (w : World) : Prop :=
  succeeds bucketName env = true →
    firstTickAfter w.nextTick (w.clock + env.backupTime + env.uploadTime)
      ≤ (iteration bucketName env w).clock

/-- The events that belong to the loop body itself, not to a stage: the clock
readings, the two stage calls, the gauge updates, the sleep and the receive. -/
def Event.ofLoop : Event → Bool
  | .timeNow => true
  | .callBackup _ => true
  | .callUpload => true
  | .stateSet _ => true
  | .durationSet _ => true
  | .lastSuccessfulSet _ => true
  | .sleep _ => true
  | .tickerRecv => true
  | _ => false

/-- The events of the replicate stage. -/
def Event.ofUpload : Event → Bool
  | .osOpen _ => true
  | .putObject _ => true
  | .fileClose => true
  | _ => false

/-- Whether `backup` reaches `Step(-1)` and the step returns an error: every
earlier call succeeds. -/
def BackupEnv.failsAtStep (env : BackupEnv) : Bool :=
  env.srcOpen.isNone && env.srcPing.isNone && env.srcConn.dbConn.isNone &&
  env.srcConn.raw.isNone && env.srcConn.isSQLiteConn && env.destOpen.isNone &&
  env.destPing.isNone && env.destConn.dbConn.isNone && env.destConn.raw.isNone &&
  env.destConn.isSQLiteConn && env.backupInit.isNone && env.stepErr.isSome

/-- The connections that `backup` has taken with `db.Conn` when it returns, in
program order. -/
def BackupEnv.connsTaken (env : BackupEnv) : List Handle :=
  (if env.srcOpen.isNone && env.srcPing.isNone && env.srcConn.dbConn.isNone then
    [Handle.conn .src] else []) ++
  (if env.srcOpen.isNone && env.srcPing.isNone && env.srcConn.dbConn.isNone &&
      env.srcConn.raw.isNone && env.srcConn.isSQLiteConn && env.destOpen.isNone &&
      env.destPing.isNone && env.destConn.dbConn.isNone then
    [Handle.conn .dest] else [])

/-- Whether `backup` reaches `Step(-1)`: every earlier call succeeds. -/
def BackupEnv.reachesStep (env : BackupEnv) : Bool :=
  env.srcOpen.isNone && env.srcPing.isNone && env.srcConn.dbConn.isNone &&
  env.srcConn.raw.isNone && env.srcConn.isSQLiteConn && env.destOpen.isNone &&
  env.destPing.isNone && env.destConn.dbConn.isNone && env.destConn.raw.isNone &&
  env.destConn.isSQLiteConn && env.backupInit.isNone

/-- What go-sqlite3 and SQLite (which are not part of the repository) let the
results of `Step(-1)` and `Finish()` be, one line for each result code of the
step.  With a negative page count `sqlite3_backup_step` copies every page, so it
returns `SQLITE_DONE`, `SQLITE_BUSY`, `SQLITE_LOCKED` or an error code.
`Step` maps `SQLITE_DONE` to `true, nil`, the busy and locked codes to
`false, nil` and an error code to `false, err`; `sqlite3_backup_finish` returns
`SQLITE_OK` after `SQLITE_DONE` and otherwise the code of the last step, which
`Finish` returns as an error. -/
def BackupEnv.fromDriver (env : BackupEnv) : Bool :=
  match env.stepDone, env.stepErr with
  | true, none => env.finish.isNone
  | false, none => env.finish.isSome
  | false, some _ => true
  | true, some _ => false

/-! ## The name of the source database -/

/-- The data source name that `backup` hands to `sql.Open` for the source:
`sourceDbFile+"?mode=ro"`. -/
def sourceName (sourceDbFile : String) : String := sourceDbFile ++ "?mode=ro"

/-- Whether go-sqlite3 (which is not part of the repository) hands the query of a
data source name to SQLite: it does so only for a name that starts with `file:`;
any other name is cut at its question mark, and the file is opened for reading
and writing and created when it is missing. -/
def honoursQuery (name : String) : Bool := "file:".toList.isPrefixOf name.toList

/-- The error of a source file that cannot be opened. -/
def cannotOpen : GoError := .base "unable to open database file"

/-- The result of `srcDb.Ping()` for a source file in an existing directory:
a file that is there is opened; a file that is missing is created (and the ping
succeeds) unless the name asks for read-only access and the driver honours it. -/
def sourcePing (fileExists : Bool) (name : String) : Option GoError :=
  if fileExists || !honoursQuery name then none else some cannotOpen

/-! ## Sample environments -/

/-- A call of `conn` in which nothing fails. -/
def ConnEnv.ok : ConnEnv := { dbConn := none, raw := none, isSQLiteConn := true }

/-- A call of `backup` in which nothing fails and the copy is complete. -/
def BackupEnv.ok : BackupEnv :=
  { srcOpen := none, srcPing := none, srcConn := ConnEnv.ok, destOpen := none, destPing := none,
    destConn := ConnEnv.ok, backupInit := none, stepDone := true, stepErr := none, finish := none }

/-- A call of `upload` in which nothing fails. -/
def UploadEnv.ok : UploadEnv := { osOpen := none, putObject := none }

/-- The error of a source that is locked. -/
def databaseLocked : GoError := .base "database is locked"

/-- The source is locked: `Step(-1)` returns `false, nil`, and `Finish()` returns
the code of the step. -/
def busyCopy : BackupEnv :=
  { BackupEnv.ok with stepDone := false, finish := some databaseLocked }

/-- The error of a step that fails. -/
def ioError : GoError := .base "disk I/O error"

/-- A call of `backup` in which `Step(-1)` fails. -/
def stepFails : BackupEnv := { BackupEnv.ok with stepDone := false, stepErr := some ioError }

/-- A call of `backup` on a path inside a directory that does not exist: the
ping fails. -/
def unreachableSource : BackupEnv := { BackupEnv.ok with srcPing := some cannotOpen }

/-- A call of `backup` on a path that names no file, in a directory that exists:
every later call succeeds on the database that the ping creates. -/
def missingFile : BackupEnv :=
  { BackupEnv.ok with srcPing := sourcePing false (sourceName "/data/calendar.db3") }

/-- The error of a remote store that rejects the credentials. -/
def accessDenied : GoError := .base "AccessDenied"

/-- A call of `upload` in which the put-object call fails. -/
def putFails : UploadEnv := { osOpen := none, putObject := some accessDenied }

/-- A pass that succeeds in 90 seconds, recorded at Unix time `unix`. -/
def goodRun (unix : Int) : IterEnv :=
  { initialTime := { ns := 5000000000, unix := unix - 90 }
    backup := BackupEnv.ok
    backupTime := 60 * Second
    upload := UploadEnv.ok
    uploadTime := 30 * Second
    endTime := { ns := 95000000000, unix := unix }
    recordTime := { ns := 95000001000, unix := unix } }

/-- A pass that succeeds but whose snapshot takes four hours. -/
def longRun : IterEnv := { goodRun 1700014400 with backupTime := 4 * Hour }

/-- A pass whose source is locked during the copy. -/
def busyRun : IterEnv := { goodRun 1700000000 with backup := busyCopy }

/-- A pass whose snapshot fails. -/
def snapshotFails : IterEnv := { goodRun 1700000000 with backup := unreachableSource }

/-- A pass whose source path names no file. -/
def missingFileRun : IterEnv := { goodRun 1700000000 with backup := missingFile }

/-- A pass whose upload fails after a successful snapshot. -/
def uploadFails : IterEnv := { goodRun 1700000000 with upload := putFails }

/-- The world after an earlier successful run: gauges set, clock past the start. -/
def afterSuccess : World :=
  { state := 1, last_successful := 1690000000, duration := 1234, clock := 7 * Hour,
    nextTick := 9 * Hour, tickPending := false, trace := [] }

/-! ## Conversions to float64 -/

theorem roundToFloat64_of_lt {n : Nat} (h : n < 2 ^ 53) : roundToFloat64 n = n := by
  unfold roundToFloat64
  rw [if_pos h]

theorem roundToFloat64_of_ge {n : Nat} (h : 2 ^ 53 ≤ n) :
    roundToFloat64 n =
      if n % 2 ^ (Nat.log2 n - 52) < 2 ^ (Nat.log2 n - 52 - 1) then
        n / 2 ^ (Nat.log2 n - 52) * 2 ^ (Nat.log2 n - 52)
      else if 2 ^ (Nat.log2 n - 52 - 1) < n % 2 ^ (Nat.log2 n - 52) then
        (n / 2 ^ (Nat.log2 n - 52) + 1) * 2 ^ (Nat.log2 n - 52)
      else if n / 2 ^ (Nat.log2 n - 52) % 2 = 0 then
        n / 2 ^ (Nat.log2 n - 52) * 2 ^ (Nat.log2 n - 52)
      else (n / 2 ^ (Nat.log2 n - 52) + 1) * 2 ^ (Nat.log2 n - 52) := by
  have : ¬ n < 2 ^ 53 := by omega
  simp only [roundToFloat64, this, if_false]

theorem log2_ge_of_ge {n : Nat} (h : 2 ^ 53 ≤ n) : 53 ≤ Nat.log2 n := by
  by_contra hlt
  have hn : n ≠ 0 := by
    have : 0 < 2 ^ 53 := by positivity
    omega
  have := (Nat.log2_lt hn).1 (not_le.1 hlt)
  omega

theorem pow_log2_split {n : Nat} (h : 2 ^ 53 ≤ n) :
    2 ^ Nat.log2 n = 2 ^ 52 * 2 ^ (Nat.log2 n - 52) := by
  have := log2_ge_of_ge h
  rw [← pow_add]
  congr 1
  omega

/-- A number of at least 54 bits rounds to no less than its leading power of two. -/
theorem roundToFloat64_lower {n : Nat} (h : 2 ^ 53 ≤ n) :
    2 ^ Nat.log2 n ≤ roundToFloat64 n := by
  have hn : n ≠ 0 := by
    have : 0 < 2 ^ 53 := by positivity
    omega
  have hlo := Nat.log2_self_le hn
  have hq : 2 ^ 52 ≤ n / 2 ^ (Nat.log2 n - 52) := by
    rw [Nat.le_div_iff_mul_le (by positivity), ← pow_log2_split h]
    exact hlo
  have h1 : 2 ^ Nat.log2 n ≤ n / 2 ^ (Nat.log2 n - 52) * 2 ^ (Nat.log2 n - 52) := by
    rw [pow_log2_split h]
    exact Nat.mul_le_mul_right _ hq
  have h2 : n / 2 ^ (Nat.log2 n - 52) * 2 ^ (Nat.log2 n - 52) ≤
      (n / 2 ^ (Nat.log2 n - 52) + 1) * 2 ^ (Nat.log2 n - 52) :=
    Nat.mul_le_mul_right _ (Nat.le_succ _)
  rw [roundToFloat64_of_ge h]
  split_ifs <;> omega

/-- A number of at least 54 bits rounds to no more than the next power of two. -/
theorem roundToFloat64_upper {n : Nat} (h : 2 ^ 53 ≤ n) :
    roundToFloat64 n ≤ 2 ^ (Nat.log2 n + 1) := by
  have hhi : n < 2 ^ (Nat.log2 n + 1) := Nat.lt_log2_self
  have hsplit : 2 ^ (Nat.log2 n + 1) = 2 ^ 53 * 2 ^ (Nat.log2 n - 52) := by
    have := log2_ge_of_ge h
    rw [← pow_add]
    congr 1
    omega
  have hq : n / 2 ^ (Nat.log2 n - 52) < 2 ^ 53 := by
    rw [Nat.div_lt_iff_lt_mul (by positivity), ← hsplit]
    exact hhi
  have h1 : (n / 2 ^ (Nat.log2 n - 52) + 1) * 2 ^ (Nat.log2 n - 52) ≤ 2 ^ (Nat.log2 n + 1) := by
    rw [hsplit]
    exact Nat.mul_le_mul_right _ hq
  have h2 : n / 2 ^ (Nat.log2 n - 52) * 2 ^ (Nat.log2 n - 52) ≤
      (n / 2 ^ (Nat.log2 n - 52) + 1) * 2 ^ (Nat.log2 n - 52) :=
    Nat.mul_le_mul_right _ (Nat.le_succ _)
  rw [roundToFloat64_of_ge h]
  split_ifs <;> omega

/-- Rounding to float64 preserves the order of natural numbers. -/
theorem roundToFloat64_mono {m n : Nat} (h : m ≤ n) : roundToFloat64 m ≤ roundToFloat64 n := by
  by_cases hm : m < 2 ^ 53
  · rw [roundToFloat64_of_lt hm]
    by_cases hn : n < 2 ^ 53
    · rw [roundToFloat64_of_lt hn]; exact h
    · have hn2 : 2 ^ 53 ≤ n := not_lt.1 hn
      have h1 := roundToFloat64_lower hn2
      have h2 : 2 ^ 53 ≤ 2 ^ Nat.log2 n := Nat.pow_le_pow_right (by norm_num) (log2_ge_of_ge hn2)
      omega
  · have hm2 : 2 ^ 53 ≤ m := not_lt.1 hm
    have hn2 : 2 ^ 53 ≤ n := le_trans hm2 h
    have hL : Nat.log2 m ≤ Nat.log2 n := by
      rw [Nat.log2_eq_log_two, Nat.log2_eq_log_two]
      exact Nat.log_mono_right h
    rcases Nat.lt_or_eq_of_le hL with hlt | heq
    · have h1 := roundToFloat64_upper hm2
      have h2 := roundToFloat64_lower hn2
      have h3 : 2 ^ (Nat.log2 m + 1) ≤ 2 ^ Nat.log2 n := Nat.pow_le_pow_right (by norm_num) hlt
      omega
    · rw [roundToFloat64_of_ge hm2, roundToFloat64_of_ge hn2, heq]
      generalize hp : 2 ^ (Nat.log2 n - 52) = p
      generalize hh : 2 ^ (Nat.log2 n - 52 - 1) = half
      have hpos : 0 < p := by rw [← hp]; positivity
      have hqm : m / p ≤ n / p := Nat.div_le_div_right h
      have hdm := Nat.div_add_mod m p
      have hdn := Nat.div_add_mod n p
      have hrm : m % p < p := Nat.mod_lt _ hpos
      have hrn : n % p < p := Nat.mod_lt _ hpos
      have hsucc : ∀ a : Nat, (a + 1) * p = a * p + p := fun a => by ring
      rcases Nat.lt_or_eq_of_le hqm with hq | hq
      · have hstep : (m / p + 1) * p ≤ n / p * p := Nat.mul_le_mul_right _ hq
        have := hsucc (m / p)
        have := hsucc (n / p)
        split_ifs <;> omega
      · have hmul : p * (m / p) = p * (n / p) := by rw [hq]
        have hr : m % p ≤ n % p := by omega
        rw [hq]
        have := hsucc (n / p)
        split_ifs <;> omega

/-- An integer below `2 ^ 53` in magnitude converts to float64 exactly. -/
theorem float64_of_natAbs_lt {x : Int} (h : x.natAbs < 2 ^ 53) : float64 x = x := by
  unfold float64
  rw [roundToFloat64_of_lt h]
  split_ifs with hx <;> omega

/-- The conversion to float64 preserves the order of integers. -/
theorem float64_mono {x y : Int} (h : x ≤ y) : float64 x ≤ float64 y := by
  unfold float64
  split_ifs with hx hy hy
  · have : y.natAbs ≤ x.natAbs := by omega
    have := roundToFloat64_mono this
    omega
  · have h1 : (0 : Int) ≤ (roundToFloat64 x.natAbs : Nat) := Int.ofNat_nonneg _
    have h2 : (0 : Int) ≤ (roundToFloat64 y.natAbs : Nat) := Int.ofNat_nonneg _
    omega
  · omega
  · have : x.natAbs ≤ y.natAbs := by omega
    have := roundToFloat64_mono this
    omega

/-- The result of `Sub` is an int64. -/
theorem Sub_range (t u : Time) : minDuration ≤ t.Sub u ∧ t.Sub u ≤ maxDuration := by
  unfold Time.Sub minDuration maxDuration
  split_ifs <;> omega

/-- The millisecond count of a duration converts to float64 exactly. -/
theorem float64_Milliseconds (t u : Time) :
    float64 (Milliseconds (t.Sub u)) = Milliseconds (t.Sub u) := by
  apply float64_of_natAbs_lt
  have h := Sub_range t u
  unfold minDuration maxDuration at h
  unfold Milliseconds
  rw [Int.natAbs_tdiv]
  have h1 : (t.Sub u).natAbs ≤ 2 ^ 63 := by omega
  have h2 : (t.Sub u).natAbs / 1000000 ≤ 2 ^ 63 / 1000000 := Nat.div_le_div_right h1
  have h3 : (t.Sub u).natAbs.div (1000000 : Int).natAbs = (t.Sub u).natAbs / 1000000 := rfl
  rw [h3]
  omega

/-! ## One pass of the loop, case by case -/

/-- The pass in which `backup` returns an error. -/
theorem iteration_of_backup_err {bucketName : String} {env : IterEnv} {w : World} {e : GoError}
    (h : (backup env.backup).1 = some e) :
    iteration bucketName env w =
      (((((w.emit [.timeNow]).emit [.callBackup w.clock]).emit (backup env.backup).2).elapse
        env.backupTime).stateSet 0).sleep backoff := by
  simp only [iteration, h]
  rfl

/-- The pass in which `backup` returns nil and `upload` returns an error. -/
theorem iteration_of_upload_err {bucketName : String} {env : IterEnv} {w : World} {e : GoError}
    (hb : (backup env.backup).1 = none) (h : (upload bucketName env.upload).1 = some e) :
    iteration bucketName env w =
      ((((((((w.emit [.timeNow]).emit [.callBackup w.clock]).emit (backup
        env.backup).2).elapse env.backupTime).emit [.callUpload]).emit (upload bucketName
        env.upload).2).elapse env.uploadTime).stateSet 0).sleep backoff := by
  simp only [iteration, h, hb]
  rfl

/-- The pass in which both stages return nil. -/
theorem iteration_of_success {bucketName : String} {env : IterEnv} {w : World}
    (hb : (backup env.backup).1 = none) (h : (upload bucketName env.upload).1 = none) :
    iteration bucketName env w =
      ((((((((((((w.emit [.timeNow]).emit [.callBackup w.clock]).emit (backup
        env.backup).2).elapse env.backupTime).emit [.callUpload]).emit (upload bucketName
        env.upload).2).elapse env.uploadTime).emit [.timeNow]).durationSet (float64
        (Milliseconds (env.endTime.Sub env.initialTime)))).stateSet 1).emit
        [.timeNow]).lastSuccessfulSet (float64 env.recordTime.Unix)).tickerRecv := by
  simp only [iteration, h, hb]
  rfl

/-- The three cases of a pass. -/
theorem iteration_cases (bucketName : String) (env : IterEnv) :
    (∃ e, (backup env.backup).1 = some e) ∨
    ((backup env.backup).1 = none ∧ ∃ e, (upload bucketName env.upload).1 = some e) ∨
    ((backup env.backup).1 = none ∧ (upload bucketName env.upload).1 = none) := by
  cases hb : (backup env.backup).1 with
  | some e => exact Or.inl ⟨e, rfl⟩
  | none =>
    cases hu : (upload bucketName env.upload).1 with
    | some e => exact Or.inr (Or.inl ⟨rfl, e, rfl⟩)
    | none => exact Or.inr (Or.inr ⟨rfl, rfl⟩)

/-! ## The gauges after one pass -/

/-- C2: a pass in which `backup` or `upload` returns an error leaves the state
gauge at 0 and the `last_successful` and `duration` gauges as they were. -/
theorem failed_pass_gauges (bucketName : String) (env : IterEnv) (w : World)
    (h : (backup env.backup).1 ≠ none ∨ (upload bucketName env.upload).1 ≠ none) :
    (iteration bucketName env w).state = 0 ∧
    (iteration bucketName env w).last_successful = w.last_successful ∧
    (iteration bucketName env w).duration = w.duration := by
  rcases iteration_cases bucketName env with ⟨e, hb⟩ | ⟨hb, e, hu⟩ | ⟨hb, hu⟩
  · rw [iteration_of_backup_err hb]
    simp [World.sleep, World.stateSet, World.elapse, World.emit]
  · rw [iteration_of_upload_err hb hu]
    simp [World.sleep, World.stateSet, World.elapse, World.emit]
  · rcases h with h | h
    · exact absurd hb h
    · exact absurd hu h

/-- C2 at a pass whose upload fails after a successful snapshot. -/
theorem failed_pass_gauges_witness :
    ((backup uploadFails.backup).1 ≠ none ∨ (upload "bucket" uploadFails.upload).1 ≠ none) ∧
    (iteration "bucket" uploadFails afterSuccess).state = 0 ∧
    (iteration "bucket" uploadFails afterSuccess).last_successful = 1690000000 ∧
    (iteration "bucket" uploadFails afterSuccess).duration = 1234 :=
  ⟨by decide, failed_pass_gauges "bucket" uploadFails afterSuccess (by decide)⟩

/-- The gauges after a receive from the ticker are the gauges before it. -/
theorem tickerRecv_gauges (w : World) :
    w.tickerRecv.state = w.state ∧ w.tickerRecv.last_successful = w.last_successful ∧
    w.tickerRecv.duration = w.duration := by
  unfold World.tickerRecv
  split_ifs <;> simp

/-- The trace after a receive from the ticker. -/
theorem tickerRecv_trace (w : World) : w.tickerRecv.trace = w.trace ++ [.tickerRecv] := by
  unfold World.tickerRecv
  split_ifs <;> simp

/-- The trace of a successful pass. -/
theorem iteration_success_trace {bucketName : String} {env : IterEnv} {w : World}
    (hb : (backup env.backup).1 = none) (hu : (upload bucketName env.upload).1 = none) :
    (iteration bucketName env w).trace =
      w.trace ++ [.timeNow, .callBackup w.clock] ++ (backup env.backup).2 ++ [.callUpload] ++
        (upload bucketName env.upload).2 ++
        [.timeNow, .durationSet (float64 (Milliseconds (env.endTime.Sub env.initialTime))),
          .stateSet 1, .timeNow, .lastSuccessfulSet (float64 env.recordTime.Unix), .tickerRecv] := by
  rw [iteration_of_success hb hu, tickerRecv_trace]
  simp [World.stateSet, World.elapse, World.emit, World.lastSuccessfulSet, World.durationSet]

/-- C3: a pass in which both stages return nil sets the state gauge to 1, the
duration gauge to the whole milliseconds of `endTime.Sub(initialTime)`, between
the instant read before the snapshot and the instant read after the upload
returned, and the `last_successful` gauge to the Unix time read at the moment of
recording, as a float64.  The millisecond count always converts exactly; it is
the truncated quotient of the difference of the two instants whenever that
difference is a `time.Duration` (about 292 years), and the Unix time converts
exactly whenever it is below `2 ^ 53` in magnitude. -/
theorem successful_pass_gauges (bucketName : String) (env : IterEnv) (w : World)
    (hb : (backup env.backup).1 = none) (hu : (upload bucketName env.upload).1 = none) :
    (iteration bucketName env w).state = 1 ∧
    (iteration bucketName env w).duration = Milliseconds (env.endTime.Sub env.initialTime) ∧
    (minDuration ≤ env.endTime.ns - env.initialTime.ns →
      env.endTime.ns - env.initialTime.ns ≤ maxDuration →
      (iteration bucketName env w).duration
        = Int.tdiv (env.endTime.ns - env.initialTime.ns) 1000000) ∧
    (iteration bucketName env w).last_successful = float64 env.recordTime.Unix ∧
    (env.recordTime.unix.natAbs < 2 ^ 53 →
      (iteration bucketName env w).last_successful = env.recordTime.unix) ∧
    (iteration bucketName env w).trace =
      w.trace ++ [.timeNow, .callBackup w.clock] ++ (backup env.backup).2 ++ [.callUpload] ++
        (upload bucketName env.upload).2 ++
        [.timeNow, .durationSet (Milliseconds (env.endTime.Sub env.initialTime)),
          .stateSet 1, .timeNow, .lastSuccessfulSet (float64 env.recordTime.Unix),
          .tickerRecv] := by
  have hd : (iteration bucketName env w).duration
      = Milliseconds (env.endTime.Sub env.initialTime) := by
    rw [iteration_of_success hb hu, (tickerRecv_gauges _).2.2]
    simp only [World.stateSet, World.elapse, World.emit, World.lastSuccessfulSet,
      World.durationSet]
    exact float64_Milliseconds _ _
  have hl : (iteration bucketName env w).last_successful = float64 env.recordTime.Unix := by
    rw [iteration_of_success hb hu, (tickerRecv_gauges _).2.1]
    simp [World.stateSet, World.elapse, World.emit, World.lastSuccessfulSet, World.durationSet]
  refine ⟨?_, hd, ?_, hl, ?_, ?_⟩
  · rw [iteration_of_success hb hu, (tickerRecv_gauges _).1]
    simp [World.stateSet, World.elapse, World.emit, World.lastSuccessfulSet, World.durationSet]
  · intro hlo hhi
    have hsub : env.endTime.Sub env.initialTime = env.endTime.ns - env.initialTime.ns := by
      unfold Time.Sub
      rw [if_neg (by omega), if_neg (by omega)]
    rw [hd, hsub]
    rfl
  · intro hunix
    rw [hl]
    exact float64_of_natAbs_lt hunix
  · rw [iteration_success_trace hb hu, float64_Milliseconds]

/-- C3 at a pass of 90 seconds recorded at Unix time 1700000000. -/
theorem successful_pass_gauges_witness :
    (backup (goodRun 1700000000).backup).1 = none ∧
    (upload "bucket" (goodRun 1700000000).upload).1 = none ∧
    (iteration "bucket" (goodRun 1700000000) World.start).state = 1 ∧
    (iteration "bucket" (goodRun 1700000000) World.start).duration = 90000 ∧
    (iteration "bucket" (goodRun 1700000000) World.start).last_successful = 1700000000 :=
  have h := successful_pass_gauges "bucket" (goodRun 1700000000) World.start (by decide)
    (by decide)
  ⟨by decide, by decide, h.1, h.2.2.1 (by decide) (by decide), h.2.2.2.2.1 (by decide)⟩

/-! ## The events of the stages -/

/-- No event of `conn` is an event of the loop body or of the replicate stage. -/
theorem conn_events (db : Db) (env : ConnEnv) :
    ∀ e ∈ (conn db env).2, e.ofLoop = false ∧ e.ofUpload = false := by
  unfold conn
  intro e he
  split at he
  · simp at he; subst he; simp [Event.ofLoop, Event.ofUpload]
  · split at he
    · simp at he; rcases he with he | he <;> subst he <;> simp [Event.ofLoop, Event.ofUpload]
    · split at he <;> simp at he <;>
        rcases he with he | he <;> subst he <;> simp [Event.ofLoop, Event.ofUpload]

/-- No event of the copy part of `backup` is an event of the loop body or of the
replicate stage. -/
theorem backupCopy_events (env : BackupEnv) :
    ∀ e ∈ (backupCopy env).2, e.ofLoop = false ∧ e.ofUpload = false := by
  have hc := conn_events .dest env.destConn
  unfold backupCopy
  repeat' split
  all_goals
    try simp only [*] at hc
    intro e he
    simp only [List.mem_cons, List.mem_append, List.mem_singleton, List.not_mem_nil, or_false,
      false_or] at he
    try casesm* _ ∨ _
    all_goals first | exact hc e ‹_› | (subst e; exact ⟨rfl, rfl⟩)

/-- No event of `backup` after its first call is an event of the loop body or of
the replicate stage. -/
theorem backupStage_events (env : BackupEnv) :
    ∀ e ∈ (backupStage env).2, e.ofLoop = false ∧ e.ofUpload = false := by
  have hc := conn_events .src env.srcConn
  have hd := backupCopy_events env
  unfold backupStage
  repeat' split
  all_goals
    try simp only [*] at hc
    intro e he
    simp only [List.mem_cons, List.mem_append, List.mem_singleton, List.not_mem_nil, or_false,
      false_or] at he
    try casesm* _ ∨ _
    all_goals first | exact hc e ‹_› | exact hd e ‹_› | (subst e; exact ⟨rfl, rfl⟩)

/-- No event of `backup` is an event of the loop body or of the replicate stage. -/
theorem backup_events (env : BackupEnv) :
    ∀ e ∈ (backup env).2, e.ofLoop = false ∧ e.ofUpload = false := by
  have hd := backupStage_events env
  unfold backup
  repeat' split
  all_goals
    intro e he
    simp only [List.mem_cons, List.mem_append, List.mem_singleton, List.not_mem_nil, or_false,
      false_or] at he
    try casesm* _ ∨ _
    all_goals first | exact hd e ‹_› | (subst e; exact ⟨rfl, rfl⟩)

/-- No event of `upload` is an event of the loop body. -/
theorem upload_events (bucketName : String) (env : UploadEnv) :
    ∀ e ∈ (upload bucketName env).2, e.ofLoop = false := by
  unfold upload
  repeat' split
  all_goals
    intro e he
    simp only [List.mem_cons, List.mem_singleton, List.not_mem_nil, or_false] at he
    try casesm* _ ∨ _
    all_goals (subst e; rfl)

/-! ## Traces, clock and ticker of one pass -/

/-- The trace of a pass whose snapshot fails. -/
theorem iteration_backup_err_trace {bucketName : String} {env : IterEnv} {w : World} {e : GoError}
    (h : (backup env.backup).1 = some e) :
    (iteration bucketName env w).trace =
      w.trace ++ [.timeNow, .callBackup w.clock] ++ (backup env.backup).2 ++
        [.stateSet 0, .sleep backoff] := by
  rw [iteration_of_backup_err h]
  simp [World.sleep, World.stateSet, World.elapse, World.emit]

/-- The trace of a pass whose upload fails. -/
theorem iteration_upload_err_trace {bucketName : String} {env : IterEnv} {w : World} {e : GoError}
    (hb : (backup env.backup).1 = none) (h : (upload bucketName env.upload).1 = some e) :
    (iteration bucketName env w).trace =
      w.trace ++ [.timeNow, .callBackup w.clock] ++ (backup env.backup).2 ++ [.callUpload] ++
        (upload bucketName env.upload).2 ++ [.stateSet 0, .sleep backoff] := by
  rw [iteration_of_upload_err hb h]
  simp [World.sleep, World.stateSet, World.elapse, World.emit]

/-- Every pass begins by reading the clock and calling `backup`, with no wait. -/
theorem iteration_trace_begin (bucketName : String) (env : IterEnv) (w : World) :
    ∃ rest, (iteration bucketName env w).trace =
      w.trace ++ .timeNow :: .callBackup w.clock :: rest := by
  rcases iteration_cases bucketName env with ⟨e, hb⟩ | ⟨hb, e, hu⟩ | ⟨hb, hu⟩
  · refine ⟨(backup env.backup).2 ++ [.stateSet 0, .sleep backoff], ?_⟩
    rw [iteration_backup_err_trace hb]
    simp
  · refine ⟨(backup env.backup).2 ++ [.callUpload] ++ (upload bucketName env.upload).2 ++
      [.stateSet 0, .sleep backoff], ?_⟩
    rw [iteration_upload_err_trace hb hu]
    simp
  · refine ⟨(backup env.backup).2 ++ [.callUpload] ++ (upload bucketName env.upload).2 ++
      [.timeNow, .durationSet (float64 (Milliseconds (env.endTime.Sub env.initialTime))),
        .stateSet 1, .timeNow, .lastSuccessfulSet (float64 env.recordTime.Unix), .tickerRecv], ?_⟩
    rw [iteration_success_trace hb hu]
    simp

/-- A failed pass leaves the `last_successful` gauge as it was. -/
theorem last_successful_of_failure (bucketName : String) (env : IterEnv) (w : World)
    (h : succeeds bucketName env = false) :
    (iteration bucketName env w).last_successful = w.last_successful := by
  rcases iteration_cases bucketName env with ⟨e, hb⟩ | ⟨hb, e, hu⟩ | ⟨hb, hu⟩
  · rw [iteration_of_backup_err hb]
    simp [World.sleep, World.stateSet, World.elapse, World.emit]
  · rw [iteration_of_upload_err hb hu]
    simp [World.sleep, World.stateSet, World.elapse, World.emit]
  · simp [succeeds, hb, hu] at h

/-- A successful pass stores the converted Unix time in the `last_successful` gauge. -/
theorem last_successful_of_success (bucketName : String) (env : IterEnv) (w : World)
    (h : succeeds bucketName env = true) :
    (iteration bucketName env w).last_successful = float64 env.recordTime.Unix := by
  simp only [succeeds, Bool.and_eq_true, Option.isNone_iff_eq_none] at h
  rw [iteration_of_success h.1 h.2, (tickerRecv_gauges _).2.1]
  simp [World.stateSet, World.elapse, World.emit, World.lastSuccessfulSet, World.durationSet]

/-- C4 refuted: two successful passes between which the wall clock steps back
lower the `last_successful` gauge. -/
theorem clock_step_back_lowers_last_successful :
    ¬ List.Chain' (· ≤ ·)
      (observations "bucket" [goodRun 1700000000, goodRun 1699990000] World.start) := by
  have h : observations "bucket" [goodRun 1700000000, goodRun 1699990000] World.start
      = [1700000000, 1699990000] := by decide
  rw [h]
  simp

/-- C4 as amended: when the Unix times read at the successful passes are
non-decreasing and the first of them is not below the gauge, the gauge value
before the passes followed by the values observed after each pass is
non-decreasing. -/
theorem last_successful_monotone (bucketName : String) (envs : List IterEnv) (w : World)
    (hfirst : ∀ u ∈ ((envs.filter (succeeds bucketName)).map fun e => e.recordTime.Unix).head?,
      w.last_successful ≤ float64 u)
    (hclock : List.Chain' (· ≤ ·)
      ((envs.filter (succeeds bucketName)).map fun e => e.recordTime.Unix)) :
    List.Chain' (· ≤ ·) (w.last_successful :: observations bucketName envs w) := by
  induction envs generalizing w with
  | nil => simp [observations]
  | cons env envs ih =>
    cases hs : succeeds bucketName env with
    | false =>
      simp only [List.filter_cons, hs] at hfirst hclock
      have hkeep := last_successful_of_failure bucketName env w hs
      have hrest := ih (iteration bucketName env w) (by rw [hkeep]; exact hfirst) hclock
      simp only [observations, List.chain'_cons]
      exact ⟨by rw [hkeep], hrest⟩
    | true =>
      simp only [List.filter_cons, hs, if_true, List.map_cons] at hfirst hclock
      have hset := last_successful_of_success bucketName env w hs
      have hrest := ih (iteration bucketName env w)
        (by
          intro u hu
          rw [hset]
          exact float64_mono (hclock.rel_head? hu))
        hclock.tail
      simp only [observations, List.chain'_cons]
      exact ⟨by rw [hset]; exact hfirst _ (by simp), hrest⟩

/-- C4 as amended, at two successful passes an hour apart with a failed pass
between them. -/
theorem last_successful_monotone_witness :
    List.Chain' (· ≤ ·)
      ((([goodRun 1700000000, uploadFails, goodRun 1700003600].filter (succeeds "bucket")).map
        fun e => e.recordTime.Unix)) ∧
    List.Chain' (· ≤ ·) (World.start.last_successful ::
      observations "bucket" [goodRun 1700000000, uploadFails, goodRun 1700003600] World.start) := by
  have hl : (([goodRun 1700000000, uploadFails, goodRun 1700003600].filter
      (succeeds "bucket")).map fun e => e.recordTime.Unix) = [1700000000, 1700003600] := by
    decide
  have hc : List.Chain' (· ≤ ·)
      ((([goodRun 1700000000, uploadFails, goodRun 1700003600].filter (succeeds "bucket")).map
        fun e => e.recordTime.Unix)) := by
    rw [hl]
    simp
  refine ⟨hc, last_successful_monotone "bucket"
    [goodRun 1700000000, uploadFails, goodRun 1700003600] World.start ?_ hc⟩
  rw [hl]
  intro u hu
  simp only [List.head?_cons, Option.mem_def, Option.some.injEq] at hu
  subst hu
  decide

/-- The clock and the ticker channel after a pass whose snapshot fails. -/
theorem iteration_backup_err_clock {bucketName : String} {env : IterEnv} {w : World} {e : GoError}
    (h : (backup env.backup).1 = some e) :
    (iteration bucketName env w).clock = w.clock + env.backupTime + backoff ∧
    (w.tickPending = true → (iteration bucketName env w).tickPending = true) := by
  rw [iteration_of_backup_err h]
  constructor
  · simp [World.sleep, World.stateSet, World.elapse, World.emit]
  · intro hp
    simp [World.sleep, World.stateSet, World.elapse, World.emit, hp]

/-- The clock and the ticker channel after a pass whose upload fails. -/
theorem iteration_upload_err_clock {bucketName : String} {env : IterEnv} {w : World} {e : GoError}
    (hb : (backup env.backup).1 = none) (h : (upload bucketName env.upload).1 = some e) :
    (iteration bucketName env w).clock = w.clock + env.backupTime + env.uploadTime + backoff ∧
    (w.tickPending = true → (iteration bucketName env w).tickPending = true) := by
  rw [iteration_of_upload_err hb h]
  constructor
  · simp [World.sleep, World.stateSet, World.elapse, World.emit]
  · intro hp
    simp [World.sleep, World.stateSet, World.elapse, World.emit, hp]

/-- An event of a stage does not end a run. -/
theorem endsRun_of_not_ofLoop {e : Event} (h : e.ofLoop = false) : e.endsRun = false := by
  cases e <;> simp_all [Event.ofLoop, Event.endsRun]

/-- An event of a stage does not start a run. -/
theorem startsRun_of_not_ofLoop {e : Event} (h : e.ofLoop = false) : e.startsRun = false := by
  cases e <;> simp_all [Event.ofLoop, Event.startsRun]

/-- C5: a pass that fails at the snapshot or at the upload sets the state gauge to
0 and then sleeps the 2 second backoff; nothing before that sleep waits, the
ticker is not received from (a tick held by its channel stays there), and the
next pass begins at once with the snapshot stage. -/
theorem failed_pass_backs_off (bucketName : String) (env next : IterEnv) (w : World)
    (h : succeeds bucketName env = false) :
    (∃ evs, (iteration bucketName env w).trace =
        w.trace ++ (.timeNow :: .callBackup w.clock :: evs) ++ [.stateSet 0, .sleep backoff] ∧
      ∀ e ∈ evs, e.endsRun = false) ∧
    backoff = 2 * 1000000000 ∧
    ((backup env.backup).1 ≠ none →
      (iteration bucketName env w).clock = w.clock + env.backupTime + backoff) ∧
    ((backup env.backup).1 = none →
      (iteration bucketName env w).clock = w.clock + env.backupTime + env.uploadTime + backoff) ∧
    (w.tickPending = true → (iteration bucketName env w).tickPending = true) ∧
    ∃ rest, (iteration bucketName next (iteration bucketName env w)).trace =
      (iteration bucketName env w).trace ++
        .timeNow :: .callBackup (iteration bucketName env w).clock :: rest := by
  refine ⟨?_, by decide, ?_, ?_, ?_, iteration_trace_begin bucketName next _⟩
  · rcases iteration_cases bucketName env with ⟨e, hb⟩ | ⟨hb, e, hu⟩ | ⟨hb, hu⟩
    · refine ⟨(backup env.backup).2, ?_, ?_⟩
      · rw [iteration_backup_err_trace hb]
        simp
      · intro ev hev
        exact endsRun_of_not_ofLoop (backup_events _ ev hev).1
    · refine ⟨(backup env.backup).2 ++ [.callUpload] ++ (upload bucketName env.upload).2, ?_, ?_⟩
      · rw [iteration_upload_err_trace hb hu]
        simp
      · intro ev hev
        simp only [List.mem_append, List.mem_singleton] at hev
        rcases hev with (hev | hev) | hev
        · exact endsRun_of_not_ofLoop (backup_events _ ev hev).1
        · subst hev
          rfl
        · exact endsRun_of_not_ofLoop (upload_events _ _ ev hev)
    · simp [succeeds, hb, hu] at h
  · intro hne
    rcases iteration_cases bucketName env with ⟨e, hb⟩ | ⟨hb, e, hu⟩ | ⟨hb, hu⟩
    · exact (iteration_backup_err_clock hb).1
    · exact absurd hb hne
    · exact absurd hb hne
  · intro hb
    rcases iteration_cases bucketName env with ⟨e, hb2⟩ | ⟨_, e, hu⟩ | ⟨_, hu⟩
    · rw [hb] at hb2
      cases hb2
    · exact (iteration_upload_err_clock hb hu).1
    · simp [succeeds, hb, hu] at h
  · rcases iteration_cases bucketName env with ⟨e, hb⟩ | ⟨hb, e, hu⟩ | ⟨hb, hu⟩
    · exact (iteration_backup_err_clock hb).2
    · exact (iteration_upload_err_clock hb hu).2
    · simp [succeeds, hb, hu] at h

/-- C5 at a pass whose snapshot fails, seven hours after the ticker was made, with a
tick waiting in the channel: the next pass starts two seconds after the failure. -/
theorem failed_pass_backs_off_witness :
    succeeds "bucket" snapshotFails = false ∧
    (iteration "bucket" snapshotFails { afterSuccess with tickPending := true }).clock
      = 7 * Hour + 60 * Second + 2 * Second ∧
    (iteration "bucket" snapshotFails { afterSuccess with tickPending := true }).tickPending
      = true :=
  have h := failed_pass_backs_off "bucket" snapshotFails (goodRun 1700000000)
    { afterSuccess with tickPending := true } (by decide)
  ⟨by decide, h.2.2.1 (by decide), h.2.2.2.2.1 rfl⟩

/-- The trace of the loop extends the trace it started from. -/
theorem mainLoop_trace_extends (bucketName : String) (envs : List IterEnv) (w : World) :
    ∃ rest, (mainLoop bucketName envs w).trace = w.trace ++ rest := by
  induction envs generalizing w with
  | nil => exact ⟨[], by simp [mainLoop]⟩
  | cons env envs ih =>
    obtain ⟨r1, h1⟩ := iteration_trace_begin bucketName env w
    obtain ⟨r2, h2⟩ := ih (iteration bucketName env w)
    refine ⟨.timeNow :: .callBackup w.clock :: r1 ++ r2, ?_⟩
    simp only [mainLoop]
    rw [h2, h1]
    simp

/-- The clock and the ticker when both stages have returned. -/
theorem elapse_elapse (w : World) (a b : Nat) :
    ((w.elapse a).elapse b).clock = w.clock + a + b ∧
    ((w.tickPending = true ∨ w.nextTick ≤ w.clock + a + b) →
      ((w.elapse a).elapse b).tickPending = true) ∧
    (w.tickPending = false → w.clock + a + b < w.nextTick →
      ((w.elapse a).elapse b).tickPending = false ∧
      ((w.elapse a).elapse b).nextTick = w.nextTick) := by
  refine ⟨rfl, ?_, ?_⟩
  · intro h
    simp only [World.elapse, Bool.or_eq_true, decide_eq_true_eq]
    by_cases h1 : w.nextTick ≤ w.clock + a
    · exact Or.inl (Or.inr h1)
    · rcases h with h | h
      · exact Or.inl (Or.inl h)
      · right
        simp only [firstTickAfter, if_neg h1]
        exact h
  · intro hp hlt
    have h1 : ¬ w.nextTick ≤ w.clock + a := by omega
    have h2 : ¬ w.nextTick ≤ w.clock + a + b := by omega
    simp [World.elapse, firstTickAfter, hp, h1, h2]

/-- C6 refuted: a run that takes four hours is followed at once by the next run,
two hours before the first tick that fires after it finished. -/
theorem stale_tick_releases_wait :
    ¬ waitsForFreshTick "bucket" longRun World.start ∧
    firstTickAfter World.start.nextTick
      (World.start.clock + longRun.backupTime + longRun.uploadTime) = 6 * Hour ∧
    runStarts (mainLoop "bucket" [longRun, goodRun 1700020000] World.start).trace
      = [0, 4 * Hour + 30 * Second] := by
  refine ⟨?_, by decide, by decide⟩
  unfold waitsForFreshTick
  decide

/-- C6 as amended: a successful pass ends with one receive from the ticker, and
nothing before it waits.  When a tick is held by the channel at the end of the
run (it fired during the run, or earlier), the next run starts at once; when
none is, the next run starts at the first tick after the run finished.  The
first run of the loop starts with no wait. -/
theorem successful_pass_waits_for_tick (bucketName : String) (env first : IterEnv)
    (envs : List IterEnv) (w : World) (h : succeeds bucketName env = true) :
    (∃ evs, (iteration bucketName env w).trace =
        w.trace ++ (.timeNow :: .callBackup w.clock :: evs) ++ [.tickerRecv] ∧
      ∀ e ∈ evs, e.endsRun = false) ∧
    ((w.tickPending = true ∨ w.nextTick ≤ w.clock + env.backupTime + env.uploadTime) →
      (iteration bucketName env w).clock = w.clock + env.backupTime + env.uploadTime) ∧
    (w.tickPending = false → w.clock + env.backupTime + env.uploadTime < w.nextTick →
      (iteration bucketName env w).clock = w.nextTick ∧
      (iteration bucketName env w).clock =
        firstTickAfter w.nextTick (w.clock + env.backupTime + env.uploadTime)) ∧
    (∃ rest, (mainLoop bucketName (first :: envs) World.start).trace =
      .timeNow :: .callBackup World.start.clock :: rest) := by
  simp only [succeeds, Bool.and_eq_true, Option.isNone_iff_eq_none] at h
  obtain ⟨hb, hu⟩ := h
  refine ⟨?_, ?_, ?_, ?_⟩
  · refine ⟨(backup env.backup).2 ++ [.callUpload] ++ (upload bucketName env.upload).2 ++
      [.timeNow, .durationSet (float64 (Milliseconds (env.endTime.Sub env.initialTime))),
        .stateSet 1, .timeNow, .lastSuccessfulSet (float64 env.recordTime.Unix)], ?_, ?_⟩
    · rw [iteration_success_trace hb hu]
      simp
    · intro ev hev
      simp only [List.mem_append, List.mem_singleton, List.mem_cons, List.not_mem_nil,
        or_false] at hev
      rcases hev with ((hev | hev) | hev) | hev
      · exact endsRun_of_not_ofLoop (backup_events _ ev hev).1
      · subst hev
        rfl
      · exact endsRun_of_not_ofLoop (upload_events _ _ ev hev)
      · rcases hev with hev | hev | hev | hev | hev <;> subst hev <;> rfl
  · intro hp
    rw [iteration_of_success hb hu]
    have hpend : w.tickPending = true ∨ w.nextTick ≤ w.clock + env.backupTime + env.uploadTime →
        ((w.elapse env.backupTime).elapse env.uploadTime).tickPending = true :=
      (elapse_elapse w env.backupTime env.uploadTime).2.1
    have := hpend hp
    simp only [World.elapse, Bool.or_eq_true, decide_eq_true_eq] at this
    simp [World.tickerRecv, World.stateSet, World.elapse, World.emit, World.lastSuccessfulSet,
      World.durationSet, this]
  · intro hp hlt
    have hno := (elapse_elapse w env.backupTime env.uploadTime).2.2 hp hlt
    simp only [World.elapse, Bool.or_eq_false_iff, decide_eq_false_iff_not] at hno
    have hfirst : firstTickAfter w.nextTick (w.clock + env.backupTime + env.uploadTime)
        = w.nextTick := by
      simp only [firstTickAfter]
      rw [if_neg (by omega)]
    rw [hfirst, and_self, iteration_of_success hb hu]
    have h1 : ¬ w.nextTick ≤ w.clock + env.backupTime := by omega
    have h2 : ¬ w.nextTick ≤ w.clock + env.backupTime + env.uploadTime := by omega
    simp [World.tickerRecv, World.stateSet, World.elapse, World.emit, World.lastSuccessfulSet,
      World.durationSet, hp, h1, h2, firstTickAfter]
  · obtain ⟨r1, h1⟩ := iteration_trace_begin bucketName first World.start
    obtain ⟨r2, h2⟩ := mainLoop_trace_extends bucketName envs (iteration bucketName first World.start)
    refine ⟨r1 ++ r2, ?_⟩
    simp only [mainLoop]
    rw [h2, h1]
    simp [World.start]

/-- C6 as amended, at a first run of 90 seconds: no tick is held by the channel,
and the next run starts at the first tick, three hours after the ticker was made. -/
theorem successful_pass_waits_for_tick_witness :
    succeeds "bucket" (goodRun 1700000000) = true ∧
    (iteration "bucket" (goodRun 1700000000) World.start).clock = 3 * Hour :=
  have h := successful_pass_waits_for_tick "bucket" (goodRun 1700000000) (goodRun 1700000000) []
    World.start (by decide)
  ⟨by decide, (h.2.2.1 rfl (by decide)).1⟩

/-- The events of a pass, when the snapshot fails: the list after the old trace. -/
theorem iteration_backup_err_drop {bucketName : String} {env : IterEnv} {w : World} {e : GoError}
    (h : (backup env.backup).1 = some e) :
    (iteration bucketName env w).trace.drop w.trace.length =
      [.timeNow, .callBackup w.clock] ++ (backup env.backup).2 ++
        [.stateSet 0, .sleep backoff] := by
  rw [iteration_backup_err_trace h, List.append_assoc, List.append_assoc, List.drop_left]
  simp

/-- A pass in which `backup` returns an error calls neither `upload` nor
put-object, never sets the state gauge to 1, and leaves it at 0. -/
theorem pass_of_failed_backup (bucketName : String) (env : IterEnv) (w : World)
    (hne : (backup env.backup).1 ≠ none) :
    Event.callUpload ∉ (iteration bucketName env w).trace.drop w.trace.length ∧
    (∀ ok, Event.putObject ok ∉ (iteration bucketName env w).trace.drop w.trace.length) ∧
    Event.stateSet 1 ∉ (iteration bucketName env w).trace.drop w.trace.length ∧
    (iteration bucketName env w).state = 0 := by
  cases hb : (backup env.backup).1 with
  | none => exact absurd hb hne
  | some e =>
    refine ⟨?_, ?_, ?_, ?_⟩
    · rw [iteration_backup_err_drop hb]
      intro hmem
      simp only [List.mem_append, List.mem_cons, List.mem_singleton, List.not_mem_nil,
        or_false] at hmem
      rcases hmem with ((hmem | hmem) | hmem) | hmem
      · cases hmem
      · cases hmem
      · have := (backup_events _ _ hmem).1
        simp [Event.ofLoop] at this
      · rcases hmem with hmem | hmem <;> cases hmem
    · intro ok
      rw [iteration_backup_err_drop hb]
      intro hmem
      simp only [List.mem_append, List.mem_cons, List.mem_singleton, List.not_mem_nil,
        or_false] at hmem
      rcases hmem with ((hmem | hmem) | hmem) | hmem
      · cases hmem
      · cases hmem
      · have := (backup_events _ _ hmem).2
        simp [Event.ofUpload] at this
      · rcases hmem with hmem | hmem <;> cases hmem
    · rw [iteration_backup_err_drop hb]
      intro hmem
      simp only [List.mem_append, List.mem_cons, List.mem_singleton, List.not_mem_nil,
        or_false] at hmem
      rcases hmem with ((hmem | hmem) | hmem) | hmem
      · cases hmem
      · cases hmem
      · have := (backup_events _ _ hmem).1
        simp [Event.ofLoop] at this
      · rcases hmem with hmem | hmem
        · simp at hmem
        · cases hmem
    · rw [iteration_of_backup_err hb]
      simp [World.sleep, World.stateSet, World.elapse, World.emit]

/-- C7, evaluated at a source path that names no file in a directory that exists:
the name `sourceDbFile+"?mode=ro"` does not start with `file:`, so the driver
drops the read-only mode and the ping creates the file; every call of `backup`
succeeds as on an existing database, `backup` returns nil, the put-object call
is made and the state gauge is set to 1. -/
theorem missing_source_file_is_uploaded :
    sourceName "/data/calendar.db3" = "/data/calendar.db3?mode=ro" ∧
    honoursQuery (sourceName "/data/calendar.db3") = false ∧
    sourcePing false (sourceName "/data/calendar.db3") = none ∧
    sourcePing false ("file:" ++ sourceName "/data/calendar.db3") = some cannotOpen ∧
    missingFile = BackupEnv.ok ∧
    (backup missingFileRun.backup).1 = none ∧
    Event.callUpload ∈ (iteration "bucket" missingFileRun World.start).trace ∧
    Event.putObject true ∈ (iteration "bucket" missingFileRun World.start).trace ∧
    (iteration "bucket" missingFileRun World.start).state = 1 := by
  refine ⟨by decide, by decide, by decide, by decide, by decide, by decide, by decide,
    by decide, by decide⟩

/-- The error result of `backup` when the driver reports a step that is not done. -/
theorem backup_not_done (env : BackupEnv) (hdrv : env.fromDriver = true)
    (hdone : env.stepDone = false) :
    (backup env).1 ≠ none ∧
    (env.reachesStep = true → env.stepErr = none →
      ∃ e, env.finish = some e ∧ (backup env).1 = some (fmtErrorfW "closing backup: " e) ∧
        Event.backupStep false true ∈ (backup env).2 ∧
        Event.backupFinish false ∈ (backup env).2) := by
  rcases env with ⟨so, sp, ⟨sc, sr, ss⟩, dop, dp, ⟨dc, dr, ds⟩, bi, sd, se, fi⟩
  simp only at hdone
  subst hdone
  cases se with
  | some e =>
    simp only [BackupEnv.fromDriver] at hdrv
    constructor
    · cases so <;> simp [backup, backupStage, backupCopy, conn]
      cases sp <;> simp
      cases sc <;> simp
      cases sr <;> simp
      cases ss <;> simp
      cases dop <;> simp
      cases dp <;> simp
      cases dc <;> simp
      cases dr <;> simp
      cases ds <;> simp
      cases bi <;> simp
    · intro _ h
      cases h
  | none =>
    simp only [BackupEnv.fromDriver, Option.isSome_iff_exists] at hdrv
    obtain ⟨e, rfl⟩ := hdrv
    constructor
    · cases so <;> simp [backup, backupStage, backupCopy, conn]
      cases sp <;> simp
      cases sc <;> simp
      cases sr <;> simp
      cases ss <;> simp
      cases dop <;> simp
      cases dp <;> simp
      cases dc <;> simp
      cases dr <;> simp
      cases ds <;> simp
      cases bi <;> simp
    · intro hreach _
      simp only [BackupEnv.reachesStep, Bool.and_eq_true, Option.isNone_iff_eq_none] at hreach
      obtain ⟨⟨⟨⟨⟨⟨⟨⟨⟨⟨h1, h2⟩, h3⟩, h4⟩, h5⟩, h6⟩, h7⟩, h8⟩, h9⟩, h10⟩, h11⟩ := hreach
      subst h1 h2 h3 h4 h5 h6 h7 h8 h9 h10 h11
      exact ⟨e, rfl, by simp [backup, backupStage, backupCopy, conn],
        by simp [backup, backupStage, backupCopy, conn],
        by simp [backup, backupStage, backupCopy, conn]⟩

/-- C1: a pass in which `Step(-1)` reports the copy not done is treated as failed.
The code discards that result; the pass fails because the driver then makes
`Finish()` return the code of the step: when the step is reached and returns
`false, nil`, `backup` returns the error of `Finish()` wrapped as
`closing backup`.  So `backup` returns an error, the pass calls neither
`upload` nor put-object, never sets the state gauge to 1, and leaves it at 0. -/
theorem partial_copy_fails_pass (bucketName : String) (env : IterEnv) (w : World)
    (hdrv : env.backup.fromDriver = true) (hdone : env.backup.stepDone = false) :
    (backup env.backup).1 ≠ none ∧
    (env.backup.reachesStep = true → env.backup.stepErr = none →
      ∃ e, env.backup.finish = some e ∧
        (backup env.backup).1 = some (fmtErrorfW "closing backup: " e) ∧
        Event.backupStep false true ∈ (backup env.backup).2 ∧
        Event.backupFinish false ∈ (backup env.backup).2) ∧
    Event.callUpload ∉ (iteration bucketName env w).trace.drop w.trace.length ∧
    (∀ ok, Event.putObject ok ∉ (iteration bucketName env w).trace.drop w.trace.length) ∧
    Event.stateSet 1 ∉ (iteration bucketName env w).trace.drop w.trace.length ∧
    (iteration bucketName env w).state = 0 :=
  ⟨(backup_not_done env.backup hdrv hdone).1, (backup_not_done env.backup hdrv hdone).2,
    pass_of_failed_backup bucketName env w (backup_not_done env.backup hdrv hdone).1⟩

/-- C1 at a source that is locked during the copy, after an earlier successful
run: the step returns `false, nil`, `Finish()` returns `database is locked`, and
the state gauge goes from 1 to 0. -/
theorem partial_copy_fails_pass_witness :
    busyRun.backup.fromDriver = true ∧ busyRun.backup.stepDone = false ∧
    busyRun.backup.stepErr = none ∧ busyRun.backup.reachesStep = true ∧
    (backup busyRun.backup).1 ≠ none ∧
    (∀ ok, Event.putObject ok ∉
      (iteration "bucket" busyRun afterSuccess).trace.drop afterSuccess.trace.length) ∧
    (iteration "bucket" busyRun afterSuccess).state = 0 :=
  have h := partial_copy_fails_pass "bucket" busyRun afterSuccess (by decide) (by decide)
  ⟨by decide, by decide, by decide, by decide, h.1, h.2.2.2.1, h.2.2.2.2.2⟩

/-! ## Runs never overlap -/

theorem runsStarted_append (a b : List Event) :
    runsStarted (a ++ b) = runsStarted a + runsStarted b := by
  simp [runsStarted]

theorem runsFinished_append (a b : List Event) :
    runsFinished (a ++ b) = runsFinished a + runsFinished b := by
  simp [runsFinished]

theorem runsStarted_take_le (tr : List Event) (k : Nat) :
    runsStarted (tr.take k) ≤ runsStarted tr :=
  ((List.take_sublist k tr).filter _).length_le

theorem runsFinished_take_le (tr : List Event) (k : Nat) :
    runsFinished (tr.take k) ≤ runsFinished tr :=
  ((List.take_sublist k tr).filter _).length_le

/-- A list of events none of which starts a run starts no run. -/
theorem runsStarted_eq_zero {tr : List Event} (h : ∀ e ∈ tr, e.startsRun = false) :
    runsStarted tr = 0 := by
  simp only [runsStarted, List.length_eq_zero, List.filter_eq_nil_iff]
  intro e he
  simp [h e he]

/-- A list of events none of which ends a run ends no run. -/
theorem runsFinished_eq_zero {tr : List Event} (h : ∀ e ∈ tr, e.endsRun = false) :
    runsFinished tr = 0 := by
  simp only [runsFinished, List.length_eq_zero, List.filter_eq_nil_iff]
  intro e he
  simp [h e he]

/-- The events of a pass: a clock reading, the start of the run, events that
neither start nor end a run, and a last event that ends the run. -/
theorem iteration_shape (bucketName : String) (env : IterEnv) (w : World) :
    ∃ mid last, (iteration bucketName env w).trace =
        w.trace ++ (.timeNow :: .callBackup w.clock :: (mid ++ [last])) ∧
      (∀ e ∈ mid, e.startsRun = false ∧ e.endsRun = false) ∧
      last.startsRun = false ∧ last.endsRun = true := by
  have hb := backup_events env.backup
  have hu := upload_events bucketName env.upload
  have hbs : ∀ e ∈ (backup env.backup).2, e.startsRun = false ∧ e.endsRun = false :=
    fun e he => ⟨startsRun_of_not_ofLoop (hb e he).1, endsRun_of_not_ofLoop (hb e he).1⟩
  have hus : ∀ e ∈ (upload bucketName env.upload).2, e.startsRun = false ∧ e.endsRun = false :=
    fun e he => ⟨startsRun_of_not_ofLoop (hu e he), endsRun_of_not_ofLoop (hu e he)⟩
  rcases iteration_cases bucketName env with ⟨e, hbe⟩ | ⟨hbn, e, hue⟩ | ⟨hbn, hun⟩
  · refine ⟨(backup env.backup).2 ++ [.stateSet 0], .sleep backoff, ?_, ?_, rfl, rfl⟩
    · rw [iteration_backup_err_trace hbe]
      simp
    · intro ev hev
      simp only [List.mem_append, List.mem_singleton] at hev
      rcases hev with hev | hev
      · exact hbs ev hev
      · subst hev
        exact ⟨rfl, rfl⟩
  · refine ⟨(backup env.backup).2 ++ [.callUpload] ++ (upload bucketName env.upload).2 ++
      [.stateSet 0], .sleep backoff, ?_, ?_, rfl, rfl⟩
    · rw [iteration_upload_err_trace hbn hue]
      simp
    · intro ev hev
      simp only [List.mem_append, List.mem_singleton] at hev
      rcases hev with ((hev | hev) | hev) | hev
      · exact hbs ev hev
      · subst hev
        exact ⟨rfl, rfl⟩
      · exact hus ev hev
      · subst hev
        exact ⟨rfl, rfl⟩
  · refine ⟨(backup env.backup).2 ++ [.callUpload] ++ (upload bucketName env.upload).2 ++
      [.timeNow, .durationSet (float64 (Milliseconds (env.endTime.Sub env.initialTime))),
        .stateSet 1, .timeNow, .lastSuccessfulSet (float64 env.recordTime.Unix)],
      .tickerRecv, ?_, ?_, rfl, rfl⟩
    · rw [iteration_success_trace hbn hun]
      simp
    · intro ev hev
      simp only [List.mem_append, List.mem_singleton, List.mem_cons, List.not_mem_nil,
        or_false] at hev
      rcases hev with ((hev | hev) | hev) | hev
      · exact hbs ev hev
      · subst hev
        exact ⟨rfl, rfl⟩
      · exact hus ev hev
      · rcases hev with hev | hev | hev | hev | hev <;> subst hev <;> exact ⟨rfl, rfl⟩

/-- The events of a pass after the start of the run start no run and end one. -/
theorem pass_tail_counts (mid : List Event) (last : Event)
    (hmid : ∀ e ∈ mid, e.startsRun = false ∧ e.endsRun = false)
    (hs : last.startsRun = false) (he : last.endsRun = true) :
    runsStarted (mid ++ [last]) = 0 ∧ runsFinished (mid ++ [last]) = 1 := by
  constructor
  · apply runsStarted_eq_zero
    intro e hmem
    simp only [List.mem_append, List.mem_singleton] at hmem
    rcases hmem with hmem | hmem
    · exact (hmid e hmem).1
    · subst hmem
      exact hs
  · rw [runsFinished_append, runsFinished_eq_zero fun e hmem => (hmid e hmem).2]
    simp [runsFinished, he]

/-- The first two events of a pass start one run and end none. -/
theorem pass_head_counts (c : Nat) (rest : List Event) :
    runsStarted (Event.timeNow :: Event.callBackup c :: rest) = 1 + runsStarted rest ∧
    runsFinished (Event.timeNow :: Event.callBackup c :: rest) = runsFinished rest := by
  constructor
  · simp [runsStarted, Event.startsRun, List.filter_cons]
    omega
  · simp [runsFinished, Event.endsRun, List.filter_cons]

/-- Within the events of one pass, at every point at most one run has started,
and no run has ended that has not started. -/
theorem pass_balance (c : Nat) (mid : List Event) (last : Event)
    (hmid : ∀ e ∈ mid, e.startsRun = false ∧ e.endsRun = false)
    (hs : last.startsRun = false) (he : last.endsRun = true) (k : Nat) :
    runsFinished ((Event.timeNow :: Event.callBackup c :: (mid ++ [last])).take k) ≤
      runsStarted ((Event.timeNow :: Event.callBackup c :: (mid ++ [last])).take k) ∧
    runsStarted ((Event.timeNow :: Event.callBackup c :: (mid ++ [last])).take k) ≤
      runsFinished ((Event.timeNow :: Event.callBackup c :: (mid ++ [last])).take k) + 1 := by
  obtain ⟨hs0, hf1⟩ := pass_tail_counts mid last hmid hs he
  match k with
  | 0 => simp [runsStarted, runsFinished]
  | 1 => simp [runsStarted, runsFinished, Event.startsRun, Event.endsRun]
  | k + 2 =>
    have h1 := runsStarted_take_le (mid ++ [last]) k
    have h2 := runsFinished_take_le (mid ++ [last]) k
    have e := pass_head_counts c ((mid ++ [last]).take k)
    rw [show (Event.timeNow :: Event.callBackup c :: (mid ++ [last])).take (k + 2)
      = Event.timeNow :: Event.callBackup c :: (mid ++ [last]).take k from rfl]
    omega

/-- The invariant of the loop trace: every run started has ended, and at every
earlier point at most one run was in flight. -/
theorem mainLoop_balance (bucketName : String) (envs : List IterEnv) (w : World)
    (hbal : runsStarted w.trace = runsFinished w.trace)
    (hpre : ∀ k, runsFinished (w.trace.take k) ≤ runsStarted (w.trace.take k) ∧
      runsStarted (w.trace.take k) ≤ runsFinished (w.trace.take k) + 1) :
    runsStarted (mainLoop bucketName envs w).trace = runsFinished (mainLoop bucketName envs w).trace ∧
    ∀ k, runsFinished ((mainLoop bucketName envs w).trace.take k) ≤
        runsStarted ((mainLoop bucketName envs w).trace.take k) ∧
      runsStarted ((mainLoop bucketName envs w).trace.take k) ≤
        runsFinished ((mainLoop bucketName envs w).trace.take k) + 1 := by
  induction envs generalizing w with
  | nil => exact ⟨hbal, hpre⟩
  | cons env envs ih =>
    obtain ⟨mid, last, htr, hmid, hs, he⟩ := iteration_shape bucketName env w
    obtain ⟨hs0, hf1⟩ := pass_tail_counts mid last hmid hs he
    obtain ⟨e1, e2⟩ := pass_head_counts w.clock (mid ++ [last])
    simp only [mainLoop]
    apply ih
    · rw [htr, runsStarted_append, runsFinished_append]
      omega
    · intro k
      rw [htr, List.take_append_eq_append_take, runsStarted_append, runsFinished_append]
      have hp := pass_balance w.clock mid last hmid hs he (k - w.trace.length)
      by_cases hk : k ≤ w.trace.length
      · have h0 : k - w.trace.length = 0 := by omega
        rw [h0] at hp ⊢
        have := hpre k
        simp only [List.take_zero] at hp ⊢
        simp only [runsStarted, runsFinished, List.filter_nil, List.length_nil] at hp ⊢
        simp only [runsStarted, runsFinished] at this
        omega
      · rw [List.take_of_length_le (by omega)]
        omega

/-- C8: at every point of the trace of the loop, at most one run is in flight: the
runs started exceed the runs ended (by a backoff sleep or by the receive from the
ticker) by at most one, so a run starts only after the run before it has ended. -/
theorem runs_never_overlap (bucketName : String) (envs : List IterEnv) (k : Nat) :
    runsFinished ((mainLoop bucketName envs World.start).trace.take k) ≤
      runsStarted ((mainLoop bucketName envs World.start).trace.take k) ∧
    runsStarted ((mainLoop bucketName envs World.start).trace.take k) ≤
      runsFinished ((mainLoop bucketName envs World.start).trace.take k) + 1 :=
  (mainLoop_balance bucketName envs World.start rfl
    (fun k => by simp [World.start, runsStarted, runsFinished])).2 k

/-! ## Resources and errors of the stages -/

/-- The handles that `backup` still holds when it returns: the connections it has
taken, and the copy handle when the step fails; the database handles never. -/
theorem backup_handles (env : BackupEnv) :
    heldAfter [] (backup env).2 =
      env.connsTaken ++ if env.failsAtStep then [Handle.copy] else [] := by
  rcases env with ⟨so, sp, ⟨sc, sr, ss⟩, dop, dp, ⟨dc, dr, ds⟩, bi, sd, se, fi⟩
  cases so <;> simp [backup, backupStage, backupCopy, conn, BackupEnv.failsAtStep,
    BackupEnv.connsTaken, heldAfter]
  cases sp <;> simp [heldAfter]
  cases sc <;> simp [heldAfter]
  cases sr <;> simp [heldAfter]
  cases ss <;> simp [heldAfter]
  cases dop <;> simp [heldAfter]
  cases dp <;> simp [heldAfter]
  cases dc <;> simp [heldAfter]
  cases dr <;> simp [heldAfter]
  cases ds <;> simp [heldAfter]
  cases bi <;> simp [heldAfter]
  cases se <;> simp [heldAfter]
  cases fi <;> simp [heldAfter]

/-- No connection handle is the copy handle or a database handle. -/
theorem connsTaken_conn (env : BackupEnv) :
    ∀ h ∈ env.connsTaken, h = Handle.conn .src ∨ h = Handle.conn .dest := by
  intro h hmem
  unfold BackupEnv.connsTaken at hmem
  simp only [List.mem_append] at hmem
  rcases hmem with hmem | hmem
  · split_ifs at hmem
    · exact Or.inl (by simpa using hmem)
    · simp at hmem
  · split_ifs at hmem
    · exact Or.inr (by simpa using hmem)
    · simp at hmem

/-- C9, evaluated at a step that fails: `backup` returns the step error without
calling `Finish`, so the copy handle is still held when it returns, while both
database handles are closed.  On every path the database handles are released,
the copy handle is held on return exactly when the step fails, and the two
connections taken inside `conn` are held on return on every path that takes
them, since no call releases them. -/
theorem step_error_leaks_copy_handle :
    (backup stepFails).1 = some (fmtErrorfW "calling the step sqlite API: " ioError) ∧
    Event.backupInit true ∈ (backup stepFails).2 ∧
    Event.backupFinish true ∉ (backup stepFails).2 ∧
    Event.backupFinish false ∉ (backup stepFails).2 ∧
    heldAfter [] (backup stepFails).2 = [Handle.conn .src, Handle.conn .dest, Handle.copy] ∧
    heldAfter [] (backup BackupEnv.ok).2 = [Handle.conn .src, Handle.conn .dest] ∧
    (∀ env : BackupEnv,
      heldAfter [] (backup env).2 =
        env.connsTaken ++ if env.failsAtStep then [Handle.copy] else []) ∧
    (∀ env : BackupEnv,
      (Handle.copy ∈ heldAfter [] (backup env).2 ↔ env.failsAtStep = true) ∧
      ∀ d, Handle.db d ∉ heldAfter [] (backup env).2) := by
  refine ⟨rfl, by decide, by decide, by decide, by decide, by decide, backup_handles, ?_⟩
  intro env
  rw [backup_handles]
  have hc := connsTaken_conn env
  constructor
  · constructor
    · intro hmem
      simp only [List.mem_append] at hmem
      rcases hmem with hmem | hmem
      · rcases hc _ hmem with h | h <;> cases h
      · by_contra hf
        simp [hf] at hmem
    · intro hf
      simp [hf]
  · intro d hmem
    simp only [List.mem_append] at hmem
    rcases hmem with hmem | hmem
    · rcases hc _ hmem with h | h <;> cases h
    · split_ifs at hmem <;> simp at hmem

/-- The error of `conn` is the first failure of its environment. -/
theorem conn_err (db : Db) (env : ConnEnv) :
    (conn db env).1 = env.causes.reduceOption.head? := by
  unfold conn ConnEnv.causes
  repeat' split
  all_goals simp_all [List.reduceOption_cons_of_some, List.reduceOption_cons_of_none]

/-- An error is in its own unwrap chain. -/
theorem mem_chain_self (err : GoError) : err ∈ err.chain := by
  cases err <;> simp [GoError.chain]

/-- The error of the copy part of `backup` wraps its first failure. -/
theorem backupCopy_err (env : BackupEnv) :
    ((backupCopy env).1 = none ∧
      ([env.destPing] ++ env.destConn.causes ++
        [env.backupInit, env.stepErr, env.finish]).reduceOption = []) ∨
    ∃ text cause, (backupCopy env).1 = some (fmtErrorfW text cause) ∧
      ([env.destPing] ++ env.destConn.causes ++
        [env.backupInit, env.stepErr, env.finish]).reduceOption.head? = some cause := by
  have hc := conn_err .dest env.destConn
  unfold backupCopy
  simp only [List.reduceOption_append]
  split
  · rename_i err h
    exact Or.inr ⟨_, err, rfl, by simp [h, List.reduceOption_cons_of_some]⟩
  · rename_i h0
    split
    · rename_i err tr h
      rw [h] at hc
      have hne : env.destConn.causes.reduceOption ≠ [] := by
        intro hnil
        rw [hnil] at hc
        simp at hc
      exact Or.inr ⟨_, err, rfl, by
        simp [h0, List.reduceOption_cons_of_none, List.head?_append_of_ne_nil _ hne, ← hc]⟩
    · rename_i tr h
      rw [h] at hc
      have hnil : env.destConn.causes.reduceOption = [] := by
        have := hc.symm
        simpa [List.head?_eq_none_iff] using this
      split
      · rename_i err h1
        exact Or.inr ⟨_, err, rfl, by
          simp [h0, h1, hnil, List.reduceOption_cons_of_none, List.reduceOption_cons_of_some]⟩
      · rename_i h1
        split
        · rename_i err h2
          exact Or.inr ⟨_, err, rfl, by
            simp [h0, h1, h2, hnil, List.reduceOption_cons_of_none,
              List.reduceOption_cons_of_some]⟩
        · rename_i h2
          split
          · rename_i err h3
            exact Or.inr ⟨_, err, rfl, by
              simp [h0, h1, h2, h3, hnil, List.reduceOption_cons_of_none,
                List.reduceOption_cons_of_some]⟩
          · rename_i h3
            exact Or.inl ⟨rfl, by simp [h0, h1, h2, h3, hnil, List.reduceOption_cons_of_none]⟩

/-- The error of `backup` after its first call wraps its first failure. -/
theorem backupStage_err (env : BackupEnv) :
    ((backupStage env).1 = none ∧
      ([env.srcPing] ++ env.srcConn.causes ++ [env.destOpen]).reduceOption ++
        ([env.destPing] ++ env.destConn.causes ++
          [env.backupInit, env.stepErr, env.finish]).reduceOption = []) ∨
    ∃ text cause, (backupStage env).1 = some (fmtErrorfW text cause) ∧
      (([env.srcPing] ++ env.srcConn.causes ++ [env.destOpen]).reduceOption ++
        ([env.destPing] ++ env.destConn.causes ++
          [env.backupInit, env.stepErr, env.finish]).reduceOption).head? = some cause := by
  have hc := conn_err .src env.srcConn
  have hd := backupCopy_err env
  unfold backupStage
  simp only [List.reduceOption_append] at hd ⊢
  split
  · rename_i err h
    exact Or.inr ⟨_, err, rfl, by simp [h, List.reduceOption_cons_of_some]⟩
  · rename_i h0
    split
    · rename_i err tr h
      rw [h] at hc
      have hne : env.srcConn.causes.reduceOption ≠ [] := by
        intro hnil
        rw [hnil] at hc
        simp at hc
      exact Or.inr ⟨_, err, rfl, by
        simp [h0, List.reduceOption_cons_of_none, List.head?_append_of_ne_nil _ hne, ← hc]⟩
    · rename_i tr h
      rw [h] at hc
      have hnil : env.srcConn.causes.reduceOption = [] := by
        have := hc.symm
        simpa [List.head?_eq_none_iff] using this
      split
      · rename_i err h1
        exact Or.inr ⟨_, err, rfl, by
          simp [h0, h1, hnil, List.reduceOption_cons_of_none, List.reduceOption_cons_of_some]⟩
      · rename_i h1
        rcases hd with ⟨hn, hl⟩ | ⟨text, cause, hs, hl⟩
        · exact Or.inl ⟨hn, by
            simpa [h0, h1, hnil, List.reduceOption_cons_of_none] using hl⟩
        · exact Or.inr ⟨text, cause, hs, by
            simpa [h0, h1, hnil, List.reduceOption_cons_of_none] using hl⟩

/-- The failures of `backup`, split at its two deferred calls. -/
theorem causes_split (env : BackupEnv) :
    env.causes = [env.srcOpen].reduceOption ++
      (([env.srcPing] ++ env.srcConn.causes ++ [env.destOpen]).reduceOption ++
        ([env.destPing] ++ env.destConn.causes ++
          [env.backupInit, env.stepErr, env.finish]).reduceOption) := by
  unfold BackupEnv.causes
  rw [← List.reduceOption_append, ← List.reduceOption_append]
  congr 1

/-- The error of `backup` wraps the first failure of its environment. -/
theorem backup_err (env : BackupEnv) :
    ((backup env).1 = none ∧ env.causes = []) ∨
    ∃ text cause, (backup env).1 = some (fmtErrorfW text cause) ∧
      env.causes.head? = some cause := by
  have hd := backupStage_err env
  rw [causes_split]
  unfold backup
  split
  · rename_i err h
    exact Or.inr ⟨_, err, rfl, by simp [h, List.reduceOption_cons_of_some]⟩
  · rename_i h0
    rcases hd with ⟨hn, hl⟩ | ⟨text, cause, hs, hl⟩
    · exact Or.inl ⟨hn, by simpa [h0, List.reduceOption_cons_of_none] using hl⟩
    · exact Or.inr ⟨text, cause, hs, by simpa [h0, List.reduceOption_cons_of_none] using hl⟩

/-- C10, evaluated at a put-object call and at an open of the staging file that
fail: the error that `upload` returns is made by `errors.New` from formatted
text, so it has no `Unwrap` result and the cause is not in its unwrap chain.
The sibling stage does what the statement asks: every error that `backup`
returns wraps the first failure of its collaborator calls, which is its
`Unwrap` result and in its unwrap chain. -/
theorem upload_error_drops_cause :
    putFails.putObject = some accessDenied ∧
    (∃ err, (upload "bucket" putFails).1 = some err ∧ err.Unwrap = none ∧
      ¬ wraps err accessDenied) ∧
    (∃ err, (upload "bucket" { osOpen := some cannotOpen, putObject := none }).1 = some err ∧
      err.Unwrap = none ∧ ¬ wraps err cannotOpen) ∧
    (∀ (benv : BackupEnv) (err : GoError), (backup benv).1 = some err →
      ∃ text cause, benv.causes.head? = some cause ∧ err = fmtErrorfW text cause ∧
        err.Unwrap = some cause ∧ wraps err cause) := by
  refine ⟨rfl, ⟨_, rfl, rfl, ?_⟩, ⟨_, rfl, rfl, ?_⟩, ?_⟩
  · unfold wraps
    decide
  · unfold wraps
    decide
  · intro benv err herr
    rcases backup_err benv with ⟨hn, _⟩ | ⟨text, cause, hs, hl⟩
    · rw [hn] at herr
      cases herr
    · rw [hs] at herr
      cases herr
      refine ⟨text, cause, hl, rfl, rfl, ?_⟩
      unfold wraps fmtErrorfW
      simp [GoError.chain, mem_chain_self]

end SqliteToR2
